import Mathlib

/-!
Verification of the SentiNet training orchestrator (`trainer.py`).

This file gives a shallow embedding of the control flow and arithmetic of
`Trainer.prepare_lossfn_optims_lr_scheduler`, `Trainer.accuracy` and
`Trainer.train`.  The neural model, the autograd engine, the loss function
values and the batch sources are external capabilities (spec §1); they are
modelled as an abstract environment of observations.  Machine floats are
modelled as rationals: every claim below is about counting, ordering,
control flow and exact ratio arithmetic, none about rounding.
-/

namespace SentiNet

/- Definitions: the shallow embedding of trainer.py -/

/-- Python exceptions that the trainer code can raise at runtime. -/
inductive PyExc
  | typeError                      -- os.path.dirname(None)
  | zeroDivisionError              -- float division by zero
  | unboundLocalError (v : String) -- reading a local that was never assigned
  | attributeError (a : String)    -- torch.nn has no attribute `a`
  | fileNotFoundError              -- os.mkdir with a missing or empty parent
  deriving DecidableEq

/-- The loss functions torch actually provides among those the code names.
`torch.nn` has `CrossEntropyLoss` but no `BCE` class (the binary one is
called `BCELoss`), so only the "cel" branch can ever produce a value. -/
inductive LossFn
  | crossEntropyLoss
  deriving DecidableEq

/-- The optimizer object, with the hyperparameters the code passes. -/
inductive Optim
  | rAdam (lr beta1 beta2 eps wd : ℚ)
  | adamW (lr beta1 beta2 eps wd : ℚ)
  deriving DecidableEq

/-- The learning rate scheduler object. -/
inductive Sched
  | exponentialLR (gamma : ℚ)
  deriving DecidableEq

/-- Shallow embedding of `Trainer.prepare_lossfn_optims_lr_scheduler`
(trainer.py lines 116-165).  The "bce" branch executes `nn.BCE()`:
`torch.nn` has no attribute `BCE`, so that branch raises AttributeError.
An unrecognized `criterator` leaves the local `loss_fn` unassigned and an
unrecognized `optimizer_type` leaves `optimizer` unassigned; the first read
of an unassigned local raises UnboundLocalError.  `optimizer` is read first,
by the `ExponentialLR(optimizer, gamma)` call on line 163, before `loss_fn`
is read by the `return` on line 165. -/
def prepare_lossfn_optims_lr_scheduler (criterator optimizer_type : String)
    (lr wd gm : ℚ) : Except PyExc (LossFn × Optim × Sched) :=
  if criterator = "bce" then
    .error (.attributeError "BCE")
  else
    let loss_fn : Option LossFn :=
      if criterator = "cel" then some .crossEntropyLoss else none
    let optimizer : Option Optim :=
      if optimizer_type = "radam" then
        some (.rAdam lr (9/10) (999/1000) (1/1000000) wd)
      else if optimizer_type = "adamw" then
        some (.adamW lr (9/10) (999/1000) (1/1000000) wd)
      else none
    match optimizer with
    | none => .error (.unboundLocalError "optimizer")
    | some opt =>
      let scheduler := Sched.exponentialLR gm
      match loss_fn with
      | none => .error (.unboundLocalError "loss_fn")
      | some lf => .ok (lf, opt, scheduler)

/-- Maximum of a list of rationals, `none` on the empty list. -/
def listMax : List ℚ → Option ℚ
  | [] => none
  | x :: xs =>
    match listMax xs with
    | none => some x
    | some m => some (max x m)

/-- Index of the first maximal element of a row: the behavior of
`torch.argmax` along the class dimension.  Rows are nonempty by the Batch
invariant; the value on `[]` is irrelevant (torch raises there). -/
def argmaxRow : List ℚ → ℕ
  | [] => 0
  | x :: xs =>
    match listMax xs with
    | none => 0
    | some m => if m ≤ x then 0 else argmaxRow xs + 1

/-- Modelled from the spec: the strictly increasing positive function that
stands in for `exp` inside the softmax model below (`activation.py`, which
defines `Softmax`, is not under src/). -/
def pexp (x : ℚ) : ℚ := if 0 ≤ x then x + 1 else 1 / (1 - x)

/-- Modelled from the spec: `activation.Softmax(-1)` (`activation.py` is not
under src/).  Spec section 1 and section 4.3 treat it as a pure per-row
normalization and section 8 relies only on it being order preserving within
each row.  True softmax sends x to exp x / sum of exps; over the rationals
we replace exp by the strictly increasing positive `pexp`, keeping the
properties used by the trainer: positivity, normalization by the row sum,
strict order preservation within a row. -/
def softmaxModel (row : List ℚ) : List ℚ :=
  let s := (row.map pexp).sum
  row.map (fun x => pexp x / s)

/-- Predicted class per example: softmax along the class dimension followed
by arg-max, as on trainer.py lines 180 and 283. -/
def predClasses (y_pred : List (List ℚ)) : List ℕ :=
  y_pred.map (fun row => argmaxRow (softmaxModel row))

/-- Correct prediction count of a batch: the embedding of
`((torch.argmax(self.softmax(pred), dim=1)) == label).sum().item()`
(trainer.py line 283). -/
def correctCount (y_pred : List (List ℚ)) (y_target : List ℕ) : ℕ :=
  ((predClasses y_pred).zip y_target).countP (fun pt => pt.1 == pt.2)

/-- Shallow embedding of `Trainer.accuracy` (trainer.py lines 167-180):
softmax along the class dimension, arg-max per example, element-wise
equality with the targets, mean of the resulting 0/1 vector. -/
def accuracy (y_pred : List (List ℚ)) (y_target : List ℕ) : ℚ :=
  (correctCount y_pred y_target : ℚ)
    / (((predClasses y_pred).zip y_target).length : ℚ)

/-- What one pull from the train Batch Source yields, composed with the
(abstract) model forward pass and loss function of that moment: the
prediction batch, the label batch, and the value of
`criteration(y_pred, label).item()`.  The model, autograd engine and loss
function are external capabilities (spec section 1), so their numeric
outputs are observations indexed by the pull counter. -/
structure TrainObs where
  pred : List (List ℚ)
  label : List ℕ
  loss : ℚ
  deriving DecidableEq

/-- What one pull from the test Batch Source yields, composed with the
model forward pass.  `input_batch.size(0)` on trainer.py line 284 equals
the number of rows of `pred` (the model preserves the batch dimension). -/
structure ValObs where
  pred : List (List ℚ)
  label : List ℕ
  deriving DecidableEq

/-- The abstract environment: the k-th pull of each generator. -/
structure Env where
  trainObs : ℕ → TrainObs
  valObs : ℕ → ValObs

/-- Observable steps of a `train` call, in program order: generator pulls,
the two per-epoch emissions, the scheduler step, and the checkpoint
actions.  The printed percentage formatting is presentation only (spec
section 6); the emitted values carry the computed rationals. -/
inductive Ev
  | pullTrain (epoch i : ℕ)
  | emitAvgTrainLoss (epoch : ℕ) (v : ℚ)
  | pullVal (epoch i : ℕ)
  | emitValAcc (epoch : ℕ) (v : ℚ)
  | schedStep (epoch : ℕ) (newLr : ℚ)
  | mkdirDir (d : String)
  | logSaveAt (p : String)
  | saveModel (p : String)
  deriving DecidableEq

/-- Mutable state threaded through the epoch loop: the two pull counters,
the event list, the three metric histories, and the learning rate owned by
the optimizer and mutated by the scheduler. -/
structure St where
  kTrain : ℕ
  kVal : ℕ
  evs : List Ev
  train_loss : List ℚ
  train_acc : List ℚ
  test_acc : List ℚ
  lr : ℚ
  deriving DecidableEq

/-- A raised exception carries the events that already happened. -/
abbrev TrainM (α : Type) := Except (PyExc × List Ev) α

/-- One TrainPhase inner loop (trainer.py lines 213-263):
`for i in trange(batch_per_epoch_train)`: pull a batch, forward, loss,
accuracy, append both metrics, accumulate the running loss.  zero_grad,
backward and optimizer step mutate only the abstract model.  Returns
(events, appended losses, appended accuracies, running loss sum). -/
def trainPhase (env : Env) (e nT k0 : ℕ) : List Ev × List ℚ × List ℚ × ℚ :=
  (List.range nT).foldl
    (fun st i =>
      let ob := env.trainObs (k0 + i)
      (st.1 ++ [Ev.pullTrain e i], st.2.1 ++ [ob.loss],
       st.2.2.1 ++ [accuracy ob.pred ob.label], st.2.2.2 + ob.loss))
    ([], [], [], 0)

/-- One ValidatePhase inner loop (trainer.py lines 274-293):
`for i in trange(batch_per_epoch_eval)`: pull a batch, forward, per-batch
accuracy, accumulate the correct count and the example count, append the
per-batch accuracy.  Returns (events, appended accuracies,
correct_prediction, total). -/
def valPhase (env : Env) (e nV k0 : ℕ) : List Ev × List ℚ × ℚ × ℚ :=
  (List.range nV).foldl
    (fun st i =>
      let ob := env.valObs (k0 + i)
      (st.1 ++ [Ev.pullVal e i], st.2.1 ++ [accuracy ob.pred ob.label],
       st.2.2.1 + (correctCount ob.pred ob.label : ℚ),
       st.2.2.2 + (ob.pred.length : ℚ)))
    ([], [], 0, 0)

/-- One iteration of the epoch loop (trainer.py lines 206-297).  After the
training batches, line 265 prints `running_train_loss/i` where `i` is the
LAST loop index, `nT - 1`: with `nT = 0` in the first epoch the local `i`
was never assigned (UnboundLocalError), with `nT = 1` the divisor is 0
(ZeroDivisionError).  After the validation batches, line 295 computes
`correct_prediction/total`, which raises ZeroDivisionError when no example
was seen.  Finally `lr_scheduler.step()` multiplies the learning rate by
gamma. -/
def epochStep (env : Env) (nT nV : ℕ) (gm : ℚ) (e : ℕ) (st : St) : TrainM St :=
  let tph := trainPhase env e nT st.kTrain
  let evs1 := st.evs ++ tph.1
  match nT with
  | 0 => .error (.unboundLocalError "i", evs1)
  | 1 => .error (.zeroDivisionError, evs1)
  | (n+2) =>
    let avg := tph.2.2.2 / ((n : ℚ) + 1)
    let evs2 := evs1 ++ [Ev.emitAvgTrainLoss e avg]
    let vph := valPhase env e nV st.kVal
    let evs3 := evs2 ++ vph.1
    if vph.2.2.2 = 0 then .error (.zeroDivisionError, evs3)
    else
      let va := vph.2.2.1 / vph.2.2.2
      let lr2 := st.lr * gm
      .ok { kTrain := st.kTrain + nT, kVal := st.kVal + nV,
            evs := evs3 ++ [Ev.emitValAcc e va, Ev.schedStep e lr2],
            train_loss := st.train_loss ++ tph.2.1,
            train_acc := st.train_acc ++ tph.2.2.1,
            test_acc := st.test_acc ++ vph.2.1,
            lr := lr2 }

/-- `for epoch in range(1, num_epochs+1)` (trainer.py line 206): run the
remaining epochs starting at epoch number `e`; a raised exception stops the
loop and propagates. -/
def epochsFrom (env : Env) (nT nV : ℕ) (gm : ℚ) : ℕ → ℕ → St → TrainM St
  | _, 0, st => .ok st
  | e, n+1, st =>
    match epochStep env nT nV gm e st with
    | .error err => .error err
    | .ok st1 => epochsFrom env nT nV gm (e+1) n st1

/-- Python `os.path.dirname` for POSIX paths: everything before the final
slash; a nonempty head that is not all slashes has its trailing slashes
stripped. -/
def dirname (p : String) : String :=
  let head := (p.data.reverse.dropWhile (fun c => c ≠ '/')).reverse
  if head ≠ [] ∧ ¬ head.all (fun c => c = '/') then
    String.mk ((head.reverse.dropWhile (fun c => c = '/')).reverse)
  else String.mk head

/-- The checkpoint step (trainer.py lines 301-315).  `fs` is the set of
directories existing at checkpoint time.  With `model_save_path = None`,
`os.path.dirname(None)` raises TypeError.  When the parent directory is
missing, `os.mkdir` raises FileNotFoundError on an empty name or a missing
grandparent; otherwise it creates the directory, the save path is
reassigned to `dirname + "/imd-sa.bin"`, the log on line 307 prints
`dirname + "/imdb-sa.bin"`, and the model is saved at the reassigned path.
Returns the extended event list and the path actually used. -/
def checkpointStep (fs : List String) (path : Option String) (evs : List Ev) :
    TrainM (List Ev × String) :=
  match path with
  | none => .error (.typeError, evs)
  | some p =>
    let d := dirname p
    if d ∈ fs then .ok (evs ++ [Ev.logSaveAt p, Ev.saveModel p], p)
    else if d = "" ∨ (dirname d ≠ "" ∧ dirname d ∉ fs) then
      .error (.fileNotFoundError, evs)
    else
      let p2 := d ++ "/imd-sa.bin"
      .ok (evs ++ [Ev.mkdirDir d,
                   Ev.logSaveAt (dirname p2 ++ "/imdb-sa.bin"),
                   Ev.saveModel p2], p2)

/-- What a completed `train` call returns (trainer.py line 315), together
with the events that happened. -/
structure TrainResult where
  train_loss : List ℚ
  train_acc : List ℚ
  test_acc : List ℚ
  savedPath : String
  evs : List Ev
  deriving DecidableEq

/-- Shallow embedding of `Trainer.train` (trainer.py lines 182-315):
build the optimization plan, run the epoch loop from epoch 1, then run the
checkpoint step and return the histories and the path actually used. -/
def train (env : Env) (nT nV : ℕ) (criterator optimizer_type : String)
    (path : Option String) (fs : List String) (num_epochs : ℕ)
    (lr wd gm : ℚ) : TrainM TrainResult :=
  match prepare_lossfn_optims_lr_scheduler criterator optimizer_type lr wd gm with
  | .error e => .error (e, [])
  | .ok _plan =>
    match epochsFrom env nT nV gm 1 num_epochs
        { kTrain := 0, kVal := 0, evs := [], train_loss := [],
          train_acc := [], test_acc := [], lr := lr } with
    | .error err => .error err
    | .ok st =>
      match checkpointStep fs path st.evs with
      | .error err => .error err
      | .ok pr =>
        .ok { train_loss := st.train_loss, train_acc := st.train_acc,
              test_acc := st.test_acc, savedPath := pr.2, evs := pr.1 }

instance {ε α : Type} [DecidableEq ε] [DecidableEq α] : DecidableEq (Except ε α)
  | .error a, .error b =>
    if h : a = b then .isTrue (by rw [h]) else .isFalse (by simp [h])
  | .error _, .ok _ => .isFalse (by simp)
  | .ok _, .error _ => .isFalse (by simp)
  | .ok a, .ok b =>
    if h : a = b then .isTrue (by rw [h]) else .isFalse (by simp [h])

/-- The losses observed during one training phase. -/
def epochLosses (env : Env) (nT kT : ℕ) : List ℚ :=
  (List.range nT).map (fun i => (env.trainObs (kT + i)).loss)

/-- The per-batch training accuracies of one training phase. -/
def epochTrainAccs (env : Env) (nT kT : ℕ) : List ℚ :=
  (List.range nT).map (fun i =>
    accuracy (env.trainObs (kT + i)).pred (env.trainObs (kT + i)).label)

/-- The per-batch validation accuracies of one validation phase. -/
def epochValAccs (env : Env) (nV kV : ℕ) : List ℚ :=
  (List.range nV).map (fun i =>
    accuracy (env.valObs (kV + i)).pred (env.valObs (kV + i)).label)

/-- Total correct predictions over one validation phase. -/
def epochCorrect (env : Env) (nV kV : ℕ) : ℚ :=
  ((List.range nV).map (fun i =>
    (correctCount (env.valObs (kV + i)).pred (env.valObs (kV + i)).label : ℚ))).sum

/-- Total examples seen over one validation phase. -/
def epochTotal (env : Env) (nV kV : ℕ) : ℚ :=
  ((List.range nV).map (fun i => ((env.valObs (kV + i)).pred.length : ℚ))).sum

/-- The events of one epoch before the scheduler step: training pulls, the
average-loss emission (with the off-by-one divisor `nT - 1` the code uses),
validation pulls, the validation accuracy emission. -/
def phasePart (env : Env) (nT nV e kT kV : ℕ) : List Ev :=
  (List.range nT).map (Ev.pullTrain e)
    ++ [Ev.emitAvgTrainLoss e ((epochLosses env nT kT).sum / ((nT : ℚ) - 1))]
    ++ (List.range nV).map (Ev.pullVal e)
    ++ [Ev.emitValAcc e (epochCorrect env nV kV / epochTotal env nV kV)]

/-- All events of one completed epoch. -/
def epochBlock (env : Env) (nT nV e kT kV : ℕ) (lrNew : ℚ) : List Ev :=
  phasePart env nT nV e kT kV ++ [Ev.schedStep e lrNew]

/-- The event lists of `n` consecutive completed epochs starting at epoch
number `e`, train pull counter `kT`, validation pull counter `kV` and
learning rate `lr`. -/
def blocks (env : Env) (nT nV : ℕ) (gm : ℚ) : ℕ → ℕ → ℕ → ℕ → ℚ → List Ev
  | 0, _, _, _, _ => []
  | n+1, e, kT, kV, lr =>
    epochBlock env nT nV e kT kV (lr * gm)
      ++ blocks env nT nV gm n (e+1) (kT + nT) (kV + nV) (lr * gm)

/-- A concrete environment: training batches with losses 1 and 2 (then 2
forever), and validation batches alternating between size 1 with one hit
and size 3 with one hit. -/
def demoEnv : Env where
  trainObs := fun k =>
    { pred := [[0, 1]], label := [1], loss := if k = 0 then 1 else 2 }
  valObs := fun k =>
    if k = 0 then { pred := [[0, 1]], label := [1] }
    else { pred := [[0, 1], [0, 1], [0, 1]], label := [1, 0, 0] }

/-- The result of the completed one-epoch demo run with two training and
two validation batches. -/
def rDemo : TrainResult :=
  { train_loss := [1, 2], train_acc := [1, 1], test_acc := [1, 1/3],
    savedPath := "models/imd-sa.bin",
    evs := [Ev.pullTrain 1 0, Ev.pullTrain 1 1, Ev.emitAvgTrainLoss 1 3,
            Ev.pullVal 1 0, Ev.pullVal 1 1, Ev.emitValAcc 1 (1/2),
            Ev.schedStep 1 (1/10000),
            Ev.mkdirDir "models", Ev.logSaveAt "models/imdb-sa.bin",
            Ev.saveModel "models/imd-sa.bin"] }

/-- The state after the completed demo epoch loop. -/
def stDemo : St :=
  { kTrain := 2, kVal := 2,
    evs := [Ev.pullTrain 1 0, Ev.pullTrain 1 1, Ev.emitAvgTrainLoss 1 3,
            Ev.pullVal 1 0, Ev.pullVal 1 1, Ev.emitValAcc 1 (1/2),
            Ev.schedStep 1 (1/10000)],
    train_loss := [1, 2], train_acc := [1, 1], test_acc := [1, 1/3],
    lr := 1/10000 }

/-- Is this event the scheduler step of epoch `e`? -/
def isSchedOf (e : ℕ) : Ev → Bool
  | .schedStep e2 _ => e2 == e
  | _ => false

/-- Is this event a training pull of epoch `e`? -/
def isTrainPullOf (e : ℕ) : Ev → Bool
  | .pullTrain e2 _ => e2 == e
  | _ => false

/-- Is this event a validation pull of epoch `e`? -/
def isValPullOf (e : ℕ) : Ev → Bool
  | .pullVal e2 _ => e2 == e
  | _ => false

/-- Is this event the validation accuracy emission of epoch `e`? -/
def isValEmitOf (e : ℕ) : Ev → Bool
  | .emitValAcc e2 _ => e2 == e
  | _ => false

/-- Is this a train-phase or validation-phase event of epoch `e` (a pull or
an emission; not the scheduler step, not a checkpoint action)? -/
def isPhaseEvOf (e : ℕ) : Ev → Bool
  | .pullTrain e2 _ => e2 == e
  | .emitAvgTrainLoss e2 _ => e2 == e
  | .pullVal e2 _ => e2 == e
  | .emitValAcc e2 _ => e2 == e
  | _ => false

/- Supporting lemmas -/

lemma pexp_pos (x : ℚ) : 0 < pexp x := by
  unfold pexp
  split
  · linarith
  · next h =>
    have h1 : (0:ℚ) < 1 - x := by linarith [not_le.mp h]
    positivity

lemma pexp_strictMono : StrictMono pexp := by
  intro a b hab
  unfold pexp
  rcases le_or_lt 0 a with ha | ha
  · have hb : 0 ≤ b := le_trans ha hab.le
    simp only [if_pos ha, if_pos hb]
    linarith
  · rcases le_or_lt 0 b with hb | hb
    · have h1a : (0:ℚ) < 1 - a := by linarith
      simp only [if_neg (not_le.mpr ha), if_pos hb]
      have hlt : 1 / (1 - a) < 1 := by
        rw [div_lt_one h1a]; linarith
      linarith
    · have h1a : (0:ℚ) < 1 - a := by linarith
      have h1b : (0:ℚ) < 1 - b := by linarith
      simp only [if_neg (not_le.mpr ha), if_neg (not_le.mpr hb)]
      rw [div_lt_div_iff₀ h1a h1b]
      linarith

lemma sum_map_pexp_pos (row : List ℚ) (h : row ≠ []) :
    0 < (row.map pexp).sum := by
  cases row with
  | nil => exact absurd rfl h
  | cons x xs =>
    simp only [List.map_cons, List.sum_cons]
    have h1 : 0 < pexp x := pexp_pos x
    have h2 : 0 ≤ (xs.map pexp).sum := by
      apply List.sum_nonneg
      intro a ha
      obtain ⟨b, _, rfl⟩ := List.mem_map.mp ha
      exact (pexp_pos b).le
    linarith

lemma listMax_map (f : ℚ → ℚ) (hf : Monotone f) :
    ∀ l : List ℚ, listMax (l.map f) = (listMax l).map f
  | [] => rfl
  | x :: xs => by
    simp only [List.map_cons, listMax, listMax_map f hf xs]
    cases listMax xs with
    | none => rfl
    | some m => simp [hf.map_max]

lemma argmaxRow_map (f : ℚ → ℚ) (hf : StrictMono f) :
    ∀ l : List ℚ, argmaxRow (l.map f) = argmaxRow l
  | [] => rfl
  | x :: xs => by
    simp only [List.map_cons, argmaxRow, listMax_map f hf.monotone xs]
    cases listMax xs with
    | none => rfl
    | some m =>
      simp only [Option.map_some', hf.le_iff_le]
      by_cases h : m ≤ x
      · simp [h]
      · simp [h, argmaxRow_map f hf xs]

lemma argmaxRow_softmaxModel (row : List ℚ) :
    argmaxRow (softmaxModel row) = argmaxRow row := by
  cases row with
  | nil => rfl
  | cons x xs =>
    have hs : 0 < ((x :: xs).map pexp).sum := sum_map_pexp_pos _ (by simp)
    have hmono : StrictMono (fun y => pexp y / ((x :: xs).map pexp).sum) := by
      intro a b hab
      have hstep := mul_lt_mul_of_pos_right (pexp_strictMono hab) (inv_pos.mpr hs)
      simpa [div_eq_mul_inv] using hstep
    simpa [softmaxModel] using argmaxRow_map _ hmono (x :: xs)

lemma predClasses_eq_argmax (y_pred : List (List ℚ)) :
    predClasses y_pred = y_pred.map argmaxRow := by
  simp [predClasses, argmaxRow_softmaxModel]

lemma predClasses_map_of_argmax_preserving (g : List ℚ → List ℚ)
    (hg : ∀ row, argmaxRow (g row) = argmaxRow row) (y : List (List ℚ)) :
    predClasses (y.map g) = predClasses y := by
  rw [predClasses_eq_argmax, predClasses_eq_argmax, List.map_map]
  exact List.map_congr_left (fun r _ => hg r)

lemma accuracy_map_of_argmax_preserving (g : List ℚ → List ℚ)
    (hg : ∀ row, argmaxRow (g row) = argmaxRow row)
    (y : List (List ℚ)) (t : List ℕ) :
    accuracy (y.map g) t = accuracy y t := by
  unfold accuracy correctCount
  rw [predClasses_map_of_argmax_preserving g hg]

lemma trainPhase_eq (env : Env) (e k0 : ℕ) : ∀ nT,
    trainPhase env e nT k0 =
      ((List.range nT).map (Ev.pullTrain e),
       epochLosses env nT k0, epochTrainAccs env nT k0,
       (epochLosses env nT k0).sum) := by
  intro nT
  induction nT with
  | zero => rfl
  | succ n ih =>
    unfold trainPhase at ih ⊢
    rw [List.range_succ, List.foldl_append, ih]
    simp [epochLosses, epochTrainAccs, List.range_succ]

lemma valPhase_eq (env : Env) (e k0 : ℕ) : ∀ nV,
    valPhase env e nV k0 =
      ((List.range nV).map (Ev.pullVal e),
       epochValAccs env nV k0,
       epochCorrect env nV k0, epochTotal env nV k0) := by
  intro nV
  induction nV with
  | zero => rfl
  | succ n ih =>
    unfold valPhase at ih ⊢
    rw [List.range_succ, List.foldl_append, ih]
    simp [epochValAccs, epochCorrect, epochTotal, List.range_succ]

lemma epochStep_ok {env : Env} {nT nV : ℕ} {gm : ℚ} {e : ℕ} {st st' : St}
    (h : epochStep env nT nV gm e st = .ok st') :
    2 ≤ nT ∧ epochTotal env nV st.kVal ≠ 0 ∧
    st' = { kTrain := st.kTrain + nT, kVal := st.kVal + nV,
            evs := st.evs ++ epochBlock env nT nV e st.kTrain st.kVal (st.lr * gm),
            train_loss := st.train_loss ++ epochLosses env nT st.kTrain,
            train_acc := st.train_acc ++ epochTrainAccs env nT st.kTrain,
            test_acc := st.test_acc ++ epochValAccs env nV st.kVal,
            lr := st.lr * gm } := by
  unfold epochStep at h
  rw [trainPhase_eq, valPhase_eq] at h
  match nT, h with
  | 0, h => exact absurd h (by simp)
  | 1, h => exact absurd h (by simp)
  | (n+2), h =>
    simp only at h
    by_cases htot : epochTotal env nV st.kVal = 0
    · rw [if_pos htot] at h
      exact absurd h (by simp)
    · rw [if_neg htot] at h
      refine ⟨by omega, htot, ?_⟩
      have hdiv : ((n : ℚ) + 1) = ((n + 2 : ℕ) : ℚ) - 1 := by push_cast; ring
      rw [Except.ok.injEq] at h
      rw [← h]
      simp only [epochBlock, phasePart, hdiv, List.append_assoc, List.cons_append,
        List.nil_append, List.singleton_append]

lemma epochsFrom_ok {env : Env} {nT nV : ℕ} {gm : ℚ} :
    ∀ (n e : ℕ) (st st' : St),
      epochsFrom env nT nV gm e n st = .ok st' →
      st'.evs = st.evs ++ blocks env nT nV gm n e st.kTrain st.kVal st.lr ∧
      st'.train_loss.length = st.train_loss.length + n * nT ∧
      st'.train_acc.length = st.train_acc.length + n * nT ∧
      st'.test_acc.length = st.test_acc.length + n * nV := by
  intro n
  induction n with
  | zero =>
    intro e st st' h
    simp only [epochsFrom, Except.ok.injEq] at h
    subst h
    simp [blocks]
  | succ n ih =>
    intro e st st' h
    simp only [epochsFrom] at h
    cases hstep : epochStep env nT nV gm e st with
    | error err => rw [hstep] at h; exact absurd h (by simp)
    | ok st1 =>
      rw [hstep] at h
      obtain ⟨_, _, hst1⟩ := epochStep_ok hstep
      obtain ⟨hb, h1, h2, h3⟩ := ih (e+1) st1 st' h
      subst hst1
      refine ⟨?_, ?_, ?_, ?_⟩
      · rw [hb]
        simp [blocks, List.append_assoc]
      · rw [h1]
        simp only [List.length_append, epochLosses, List.length_map,
          List.length_range]
        ring
      · rw [h2]
        simp only [List.length_append, epochTrainAccs, List.length_map,
          List.length_range]
        ring
      · rw [h3]
        simp only [List.length_append, epochValAccs, List.length_map,
          List.length_range]
        ring

lemma train_ok_inv {env : Env} {nT nV : ℕ} {criterator optimizer_type : String}
    {path : Option String} {fs : List String} {num_epochs : ℕ} {lr wd gm : ℚ}
    {res : TrainResult}
    (h : train env nT nV criterator optimizer_type path fs num_epochs lr wd gm
      = .ok res) :
    ∃ st pr,
      epochsFrom env nT nV gm 1 num_epochs
        { kTrain := 0, kVal := 0, evs := [], train_loss := [],
          train_acc := [], test_acc := [], lr := lr } = .ok st
      ∧ checkpointStep fs path st.evs = .ok pr
      ∧ res = { train_loss := st.train_loss, train_acc := st.train_acc,
                test_acc := st.test_acc, savedPath := pr.2, evs := pr.1 } := by
  unfold train at h
  split at h
  · exact absurd h (by simp)
  · split at h
    · exact absurd h (by simp)
    · split at h
      · exact absurd h (by simp)
      · rename_i x1 st hst x2 pr hpr
        rw [Except.ok.injEq] at h
        exact ⟨st, pr, hst, hpr, h.symm⟩

lemma train_eq_of_parts {env : Env} {nT nV : ℕ}
    {criterator optimizer_type : String} {path : Option String}
    {fs : List String} {num_epochs : ℕ} {lr wd gm : ℚ}
    {plan : LossFn × Optim × Sched} {st : St} {pr : List Ev × String}
    (hp : prepare_lossfn_optims_lr_scheduler criterator optimizer_type lr wd gm
      = .ok plan)
    (hl : epochsFrom env nT nV gm 1 num_epochs
        { kTrain := 0, kVal := 0, evs := [], train_loss := [],
          train_acc := [], test_acc := [], lr := lr } = .ok st)
    (hc : checkpointStep fs path st.evs = .ok pr) :
    train env nT nV criterator optimizer_type path fs num_epochs lr wd gm
      = .ok { train_loss := st.train_loss, train_acc := st.train_acc,
              test_acc := st.test_acc, savedPath := pr.2, evs := pr.1 } := by
  unfold train
  rw [hp, hl]
  simp only [hc]

lemma accuracy_demo_one : accuracy [[(0:ℚ), 1]] [1] = 1 := by
  norm_num [accuracy, correctCount, predClasses_eq_argmax, argmaxRow, listMax]

lemma accuracy_demo_three :
    accuracy [[(0:ℚ), 1], [0, 1], [0, 1]] [1, 0, 0] = 1/3 := by
  norm_num [accuracy, correctCount, predClasses_eq_argmax, argmaxRow, listMax]

lemma correctCount_demo_one : correctCount [[(0:ℚ), 1]] [1] = 1 := by
  norm_num [correctCount, predClasses_eq_argmax, argmaxRow, listMax]

lemma correctCount_demo_three :
    correctCount [[(0:ℚ), 1], [0, 1], [0, 1]] [1, 0, 0] = 1 := by
  norm_num [correctCount, predClasses_eq_argmax, argmaxRow, listMax]

lemma demo_epochStep :
    epochStep demoEnv 2 2 (1/10) 1
      { kTrain := 0, kVal := 0, evs := [], train_loss := [],
        train_acc := [], test_acc := [], lr := 1/1000 }
      = .ok stDemo := by
  unfold epochStep
  rw [trainPhase_eq, valPhase_eq]
  norm_num [epochLosses, epochTrainAccs, epochValAccs, epochCorrect,
    epochTotal, demoEnv, accuracy_demo_one, accuracy_demo_three,
    correctCount_demo_one, correctCount_demo_three, List.range_succ, stDemo]

lemma demo_epochsFrom :
    epochsFrom demoEnv 2 2 (1/10) 1 1
      { kTrain := 0, kVal := 0, evs := [], train_loss := [],
        train_acc := [], test_acc := [], lr := 1/1000 } = .ok stDemo := by
  have h1 : (1 : ℕ) = 0 + 1 := rfl
  rw [h1]
  simp only [epochsFrom]
  rw [demo_epochStep]

lemma demo_checkpoint (evs : List Ev) :
    checkpointStep [] (some "models/net.bin") evs
      = .ok (evs ++ [Ev.mkdirDir "models", Ev.logSaveAt "models/imdb-sa.bin",
                     Ev.saveModel "models/imd-sa.bin"], "models/imd-sa.bin") := by
  rfl

lemma demo_run :
    train demoEnv 2 2 "cel" "adamw" (some "models/net.bin") [] 1
        (1/1000) (1/10000) (1/10) = .ok rDemo := by
  have hp : prepare_lossfn_optims_lr_scheduler "cel" "adamw"
      (1/1000) (1/10000) (1/10)
      = .ok (.crossEntropyLoss,
             .adamW (1/1000) (9/10) (999/1000) (1/1000000) (1/10000),
             .exponentialLR (1/10)) := rfl
  have h := train_eq_of_parts hp demo_epochsFrom (demo_checkpoint stDemo.evs)
  rw [h]
  rfl

lemma epochsFrom_nT_one (env : Env) (nV : ℕ) (gm : ℚ) (m : ℕ) (st : St) :
    epochsFrom env 1 nV gm 1 (m+1) st
      = .error (.zeroDivisionError, st.evs ++ [Ev.pullTrain 1 0]) := by
  have hstep : epochStep env 1 nV gm 1 st
      = .error (.zeroDivisionError, st.evs ++ [Ev.pullTrain 1 0]) := by
    unfold epochStep
    rw [trainPhase_eq]
    norm_num [List.range_succ]
  simp only [epochsFrom]
  rw [hstep]

lemma saveModel_not_mem_blocks (env : Env) (nT nV : ℕ) (gm : ℚ) :
    ∀ (n e kT kV : ℕ) (lr : ℚ) (q : String),
      Ev.saveModel q ∉ blocks env nT nV gm n e kT kV lr := by
  intro n
  induction n with
  | zero => intro e kT kV lr q; simp [blocks]
  | succ n ih =>
    intro e kT kV lr q
    simp only [blocks, List.mem_append, not_or]
    constructor
    · simp [epochBlock, phasePart, List.mem_append, List.mem_map]
    · exact ih (e+1) _ _ _ q

lemma dropWhile_append_of_all {α : Type} (p : α → Bool) :
    ∀ (a b : List α), (∀ x ∈ a, p x = true) →
      (a ++ b).dropWhile p = b.dropWhile p
  | [], _, _ => rfl
  | x :: xs, b, h => by
    simp only [List.cons_append, List.dropWhile_cons, h x (by simp)]
    exact dropWhile_append_of_all p xs b (fun y hy => h y (by simp [hy]))

lemma head?_dropWhile_ne {α : Type} (p : α → Bool) :
    ∀ (l : List α) (x : α), (l.dropWhile p).head? = some x → p x = false
  | [], x, h => by simp [List.dropWhile] at h
  | y :: ys, x, h => by
    rw [List.dropWhile_cons] at h
    by_cases hp : p y = true
    · rw [if_pos hp] at h
      exact head?_dropWhile_ne p ys x h
    · rw [if_neg hp] at h
      simp only [List.head?_cons, Option.some.injEq] at h
      subst h
      simpa using hp

lemma data_mk (l : List Char) : (String.mk l).data = l := rfl

lemma string_ne_empty_iff (d : String) : d ≠ "" ↔ d.data ≠ [] := by
  obtain ⟨l⟩ := d
  constructor
  · intro h h0
    exact h (by rw [show ("" : String) = String.mk [] from rfl, ← h0])
  · intro h h0
    exact h (by rw [h0])

/-- Python `os.path.dirname` of a path `d ++ "/" ++ s` whose basename `s`
is slash free and whose directory part `d` is nonempty, not all slashes,
and has no trailing slash, is `d` again. -/
lemma dirname_of_data (q d : String) (s : List Char)
    (hq : q.data = d.data ++ '/' :: s) (hs : ∀ c ∈ s, c ≠ '/')
    (hne : d ≠ "") (hsl : ¬ d.data.all (fun c => c = '/'))
    (hts : d.data.getLast? ≠ some '/') :
    dirname q = d := by
  have hd : d.data ≠ [] := (string_ne_empty_iff d).mp hne
  unfold dirname
  rw [hq]
  have h1 : (d.data ++ '/' :: s).reverse = s.reverse ++ '/' :: d.data.reverse := by
    simp
  rw [h1]
  have h2 : (s.reverse ++ '/' :: d.data.reverse).dropWhile (fun c => c ≠ '/')
      = ('/' :: d.data.reverse).dropWhile (fun c => c ≠ '/') := by
    apply dropWhile_append_of_all
    intro x hx
    have hxs : x ∈ s := by simpa using hx
    simpa using hs x hxs
  rw [h2]
  have h3 : ('/' :: d.data.reverse).dropWhile (fun c => c ≠ '/')
      = '/' :: d.data.reverse := by
    rw [List.dropWhile_cons]
    simp
  rw [h3]
  have h4 : ('/' :: d.data.reverse).reverse = d.data ++ ['/'] := by simp
  rw [h4]
  have h5 : (d.data ++ ['/']).all (fun c => c = '/') = d.data.all (fun c => c = '/') := by
    simp [List.all_append]
  have hcond : d.data ++ ['/'] ≠ [] ∧ ¬ (d.data ++ ['/']).all (fun c => c = '/') := by
    constructor
    · simp
    · rw [h5]; exact hsl
  rw [if_pos hcond]
  have h6 : (d.data ++ ['/']).reverse = '/' :: d.data.reverse := by simp
  rw [h6]
  have h7 : ('/' :: d.data.reverse).dropWhile (fun c => c = '/')
      = d.data.reverse.dropWhile (fun c => c = '/') := by
    rw [List.dropWhile_cons]
    simp
  rw [h7]
  cases hrev : d.data.reverse with
  | nil => exact absurd (by simpa using congrArg List.reverse hrev) hd
  | cons c rest =>
    have hc : c ≠ '/' := by
      intro hc0
      apply hts
      have hgl : d.data.getLast? = (d.data.reverse).head? := by
        conv_lhs => rw [← List.reverse_reverse d.data]
        rw [List.getLast?_reverse]
      rw [hgl, hrev, hc0]
      rfl
    have h8 : (c :: rest).dropWhile (fun c => c = '/') = c :: rest := by
      rw [List.dropWhile_cons]
      simp [hc]
    rw [h8, ← hrev, List.reverse_reverse]

/-- The output of `dirname`, when nonempty and not all slashes, never ends
in a slash. -/
lemma dirname_getLast_ne_slash (p : String)
    (hne : dirname p ≠ "") (hsl : ¬ (dirname p).data.all (fun c => c = '/')) :
    (dirname p).data.getLast? ≠ some '/' := by
  unfold dirname at *
  by_cases hc : (p.data.reverse.dropWhile (fun c => c ≠ '/')).reverse ≠ []
      ∧ ¬ ((p.data.reverse.dropWhile (fun c => c ≠ '/')).reverse).all
            (fun c => c = '/')
  · rw [if_pos hc] at hsl ⊢
    intro hlast
    rw [data_mk, List.getLast?_reverse] at hlast
    have hfalse := head?_dropWhile_ne _ _ _ hlast
    simp at hfalse
  · rw [if_neg hc] at hne hsl ⊢
    rw [data_mk] at hsl ⊢
    rw [string_ne_empty_iff, data_mk] at hne
    push_neg at hc
    exact absurd (hc hne) hsl

lemma checkpointStep_some (fs : List String) (p : String) (evs : List Ev) :
    checkpointStep fs (some p) evs =
      if dirname p ∈ fs then .ok (evs ++ [Ev.logSaveAt p, Ev.saveModel p], p)
      else if dirname p = "" ∨ (dirname (dirname p) ≠ "" ∧ dirname (dirname p) ∉ fs) then
        .error (.fileNotFoundError, evs)
      else
        .ok (evs ++ [Ev.mkdirDir (dirname p),
                     Ev.logSaveAt (dirname (dirname p ++ "/imd-sa.bin") ++ "/imdb-sa.bin"),
                     Ev.saveModel (dirname p ++ "/imd-sa.bin")],
             dirname p ++ "/imd-sa.bin") := rfl

lemma countP_const_false {α : Type} (l : List α) :
    l.countP (fun _ => false) = 0 := by
  induction l with
  | nil => rfl
  | cons x xs ih => simp [List.countP_cons, ih]

lemma countP_const_true {α : Type} (l : List α) :
    l.countP (fun _ => true) = l.length := by
  induction l with
  | nil => rfl
  | cons x xs ih => simp [List.countP_cons, ih]

lemma phasePart_countP_sched (env : Env) (nT nV e kT kV e2 : ℕ) :
    (phasePart env nT nV e kT kV).countP (isSchedOf e2) = 0 := by
  simp [phasePart, List.countP_append, List.countP_map, List.countP_cons,
    Function.comp_def, isSchedOf, countP_const_false]

lemma phasePart_countP_trainPull (env : Env) (nT nV e kT kV e2 : ℕ) :
    (phasePart env nT nV e kT kV).countP (isTrainPullOf e2)
      = if e2 = e then nT else 0 := by
  by_cases he : e2 = e
  · subst he
    simp [phasePart, List.countP_append, List.countP_map, List.countP_cons,
      Function.comp_def, isTrainPullOf, countP_const_true, countP_const_false]
  · have hbe : (e == e2) = false := beq_eq_false_iff_ne.mpr (Ne.symm he)
    simp [phasePart, List.countP_append, List.countP_map, List.countP_cons,
      Function.comp_def, isTrainPullOf, hbe, countP_const_false, he]

lemma phasePart_countP_valPull (env : Env) (nT nV e kT kV e2 : ℕ) :
    (phasePart env nT nV e kT kV).countP (isValPullOf e2)
      = if e2 = e then nV else 0 := by
  by_cases he : e2 = e
  · subst he
    simp [phasePart, List.countP_append, List.countP_map, List.countP_cons,
      Function.comp_def, isValPullOf, countP_const_true, countP_const_false]
  · have hbe : (e == e2) = false := beq_eq_false_iff_ne.mpr (Ne.symm he)
    simp [phasePart, List.countP_append, List.countP_map, List.countP_cons,
      Function.comp_def, isValPullOf, hbe, countP_const_false, he]

lemma phasePart_countP_valEmit (env : Env) (nT nV e kT kV e2 : ℕ) :
    (phasePart env nT nV e kT kV).countP (isValEmitOf e2)
      = if e2 = e then 1 else 0 := by
  by_cases he : e2 = e
  · subst he
    simp [phasePart, List.countP_append, List.countP_map, List.countP_cons,
      Function.comp_def, isValEmitOf, countP_const_false]
  · have hbe : (e == e2) = false := beq_eq_false_iff_ne.mpr (Ne.symm he)
    simp [phasePart, List.countP_append, List.countP_map, List.countP_cons,
      Function.comp_def, isValEmitOf, hbe, countP_const_false, he]

lemma phasePart_countP_phase_ne (env : Env) (nT nV e kT kV e2 : ℕ)
    (he : e2 ≠ e) :
    (phasePart env nT nV e kT kV).countP (isPhaseEvOf e2) = 0 := by
  have hbe : (e == e2) = false := beq_eq_false_iff_ne.mpr (Ne.symm he)
  simp [phasePart, List.countP_append, List.countP_map, List.countP_cons,
    Function.comp_def, isPhaseEvOf, hbe, countP_const_false]

lemma epochBlock_countP_sched (env : Env) (nT nV e kT kV e2 : ℕ) (l : ℚ) :
    (epochBlock env nT nV e kT kV l).countP (isSchedOf e2)
      = if e2 = e then 1 else 0 := by
  rw [epochBlock, List.countP_append, phasePart_countP_sched]
  by_cases he : e2 = e
  · subst he
    simp [List.countP_cons, isSchedOf]
  · have hbe : (e == e2) = false := beq_eq_false_iff_ne.mpr (Ne.symm he)
    simp [List.countP_cons, isSchedOf, hbe, he]

lemma epochBlock_countP_trainPull (env : Env) (nT nV e kT kV e2 : ℕ) (l : ℚ) :
    (epochBlock env nT nV e kT kV l).countP (isTrainPullOf e2)
      = if e2 = e then nT else 0 := by
  rw [epochBlock, List.countP_append, phasePart_countP_trainPull]
  simp [List.countP_cons, isTrainPullOf]

lemma epochBlock_countP_valPull (env : Env) (nT nV e kT kV e2 : ℕ) (l : ℚ) :
    (epochBlock env nT nV e kT kV l).countP (isValPullOf e2)
      = if e2 = e then nV else 0 := by
  rw [epochBlock, List.countP_append, phasePart_countP_valPull]
  simp [List.countP_cons, isValPullOf]

lemma epochBlock_countP_valEmit (env : Env) (nT nV e kT kV e2 : ℕ) (l : ℚ) :
    (epochBlock env nT nV e kT kV l).countP (isValEmitOf e2)
      = if e2 = e then 1 else 0 := by
  rw [epochBlock, List.countP_append, phasePart_countP_valEmit]
  simp [List.countP_cons, isValEmitOf]

lemma epochBlock_countP_phase_ne (env : Env) (nT nV e kT kV e2 : ℕ) (l : ℚ)
    (he : e2 ≠ e) :
    (epochBlock env nT nV e kT kV l).countP (isPhaseEvOf e2) = 0 := by
  rw [epochBlock, List.countP_append, phasePart_countP_phase_ne env nT nV e kT kV e2 he]
  simp [List.countP_cons, isPhaseEvOf]

lemma blocks_countP_zero_of (env : Env) (nT nV : ℕ) (gm : ℚ) (P : Ev → Bool) :
    ∀ (n e kT kV : ℕ) (lr : ℚ),
      (∀ e2 kT2 kV2 (l2 : ℚ), e ≤ e2 → e2 < e + n →
        (epochBlock env nT nV e2 kT2 kV2 l2).countP P = 0) →
      (blocks env nT nV gm n e kT kV lr).countP P = 0 := by
  intro n
  induction n with
  | zero => intro e kT kV lr _; simp [blocks]
  | succ n ih =>
    intro e kT kV lr hblk
    rw [blocks, List.countP_append]
    rw [hblk e kT kV (lr * gm) le_rfl (by omega)]
    rw [ih (e+1) (kT+nT) (kV+nV) (lr*gm)
      (fun e2 kT2 kV2 l2 h1 h2 => hblk e2 kT2 kV2 l2 (by omega) (by omega))]

/-- Decomposition of the trace of `n` completed epochs around the scheduler
step of epoch `e`: it occurs exactly once, all of the training and
validation events of epoch `e` precede it, and no event of epoch `e`
follows it. -/
lemma blocks_sched_decomp (env : Env) (nT nV : ℕ) (gm : ℚ) :
    ∀ (n e0 kT kV : ℕ) (lr : ℚ) (e : ℕ), e0 ≤ e → e < e0 + n →
    ∃ a v b, blocks env nT nV gm n e0 kT kV lr = a ++ Ev.schedStep e v :: b
      ∧ a.countP (isSchedOf e) = 0 ∧ b.countP (isSchedOf e) = 0
      ∧ a.countP (isTrainPullOf e) = nT ∧ a.countP (isValPullOf e) = nV
      ∧ b.countP (isPhaseEvOf e) = 0 := by
  intro n
  induction n with
  | zero => intro e0 kT kV lr e h1 h2; omega
  | succ n ih =>
    intro e0 kT kV lr e h1 h2
    by_cases heq : e = e0
    · subst heq
      refine ⟨phasePart env nT nV e kT kV, lr * gm,
              blocks env nT nV gm n (e+1) (kT+nT) (kV+nV) (lr*gm),
              ?_, phasePart_countP_sched env nT nV e kT kV e, ?_, ?_, ?_, ?_⟩
      · rw [blocks, epochBlock, List.append_assoc]
        rfl
      · apply blocks_countP_zero_of
        intro e2 kT2 kV2 l2 hle hlt
        rw [epochBlock_countP_sched]
        simp [show e ≠ e2 by omega]
      · rw [phasePart_countP_trainPull]
        simp
      · rw [phasePart_countP_valPull]
        simp
      · apply blocks_countP_zero_of
        intro e2 kT2 kV2 l2 hle hlt
        exact epochBlock_countP_phase_ne env nT nV e2 kT2 kV2 e l2 (by omega)
    · obtain ⟨a, v, b, hsplit, ha1, hb1, ha2, ha3, hb2⟩ :=
        ih (e0+1) (kT+nT) (kV+nV) (lr*gm) e (by omega) (by omega)
      refine ⟨epochBlock env nT nV e0 kT kV (lr*gm) ++ a, v, b, ?_, ?_, hb1, ?_, ?_, hb2⟩
      · rw [blocks, hsplit, List.append_assoc]
      · rw [List.countP_append, ha1, epochBlock_countP_sched]
        simp [heq]
      · rw [List.countP_append, ha2, epochBlock_countP_trainPull]
        simp [heq]
      · rw [List.countP_append, ha3, epochBlock_countP_valPull]
        simp [heq]

/-- Decomposition for the validation accuracy claim: the validation
accuracy of epoch `e` is emitted exactly once, with value total correct
over total seen for that epoch. -/
lemma blocks_valEmit_decomp (env : Env) (nT nV : ℕ) (gm : ℚ) :
    ∀ (n e0 kT kV : ℕ) (lr : ℚ) (e : ℕ), e0 ≤ e → e < e0 + n →
      (blocks env nT nV gm n e0 kT kV lr).countP (isValEmitOf e) = 1
      ∧ Ev.emitValAcc e (epochCorrect env nV (kV + (e - e0) * nV)
            / epochTotal env nV (kV + (e - e0) * nV))
          ∈ blocks env nT nV gm n e0 kT kV lr := by
  intro n
  induction n with
  | zero => intro e0 kT kV lr e h1 h2; omega
  | succ n ih =>
    intro e0 kT kV lr e h1 h2
    by_cases heq : e = e0
    · subst heq
      constructor
      · rw [blocks, List.countP_append, epochBlock_countP_valEmit]
        rw [blocks_countP_zero_of env nT nV gm (isValEmitOf e) n (e+1) (kT+nT)
          (kV+nV) (lr*gm) ?_]
        · simp
        · intro e2 kT2 kV2 l2 hle hlt
          rw [epochBlock_countP_valEmit]
          simp [show e ≠ e2 by omega]
      · rw [blocks]
        apply List.mem_append_left
        rw [epochBlock]
        apply List.mem_append_left
        simp only [Nat.sub_self, Nat.zero_mul, Nat.add_zero]
        simp [phasePart]
    · obtain ⟨hc, hm⟩ := ih (e0+1) (kT+nT) (kV+nV) (lr*gm) e (by omega) (by omega)
      constructor
      · rw [blocks, List.countP_append, hc, epochBlock_countP_valEmit]
        simp [heq]
      · rw [blocks]
        apply List.mem_append_right
        have hidx : kV + (e - e0) * nV = kV + nV + (e - (e0+1)) * nV := by
          have hsub : e - e0 = (e - (e0+1)) + 1 := by omega
          rw [hsub]
          ring
        rw [hidx]
        exact hm

/-- The tail appended at checkpoint time contains no epoch-tagged events. -/
lemma checkpointStep_ok_evs {fs : List String} {path : Option String}
    {evs : List Ev} {pr : List Ev × String}
    (h : checkpointStep fs path evs = .ok pr) :
    ∃ tail, pr.1 = evs ++ tail
      ∧ ∀ e2, tail.countP (isSchedOf e2) = 0
        ∧ tail.countP (isPhaseEvOf e2) = 0
        ∧ tail.countP (isValEmitOf e2) = 0 := by
  cases path with
  | none => exact absurd h (by simp [checkpointStep])
  | some p =>
    rw [checkpointStep_some] at h
    by_cases h1 : dirname p ∈ fs
    · rw [if_pos h1, Except.ok.injEq] at h
      subst h
      refine ⟨_, rfl, ?_⟩
      intro e2
      refine ⟨?_, ?_, ?_⟩ <;>
        simp [List.countP_cons, isSchedOf, isPhaseEvOf, isValEmitOf]
    · rw [if_neg h1] at h
      by_cases h2 : dirname p = ""
          ∨ (dirname (dirname p) ≠ "" ∧ dirname (dirname p) ∉ fs)
      · rw [if_pos h2] at h
        exact absurd h (by simp)
      · rw [if_neg h2, Except.ok.injEq] at h
        subst h
        refine ⟨_, rfl, ?_⟩
        intro e2
        refine ⟨?_, ?_, ?_⟩ <;>
          simp [List.countP_cons, isSchedOf, isPhaseEvOf, isValEmitOf]

/- Claim theorems and witnesses -/

/-- Claim C2: with both kind strings unrecognized, the builder raises
(here: the UnboundLocalError from the never-assigned `optimizer` local,
which is what the spec error taxonomy calls the ConfigurationError for
unrecognized kind strings) instead of returning any defaulted triple. -/
theorem prepare_unrecognized_kinds_fail (criterator optimizer_type : String)
    (lr wd gm : ℚ) (hc1 : criterator ≠ "bce") (hc2 : criterator ≠ "cel")
    (ho1 : optimizer_type ≠ "radam") (ho2 : optimizer_type ≠ "adamw") :
    prepare_lossfn_optims_lr_scheduler criterator optimizer_type lr wd gm
      = .error (.unboundLocalError "optimizer") := by
  unfold prepare_lossfn_optims_lr_scheduler
  simp [hc1, hc2, ho1, ho2]

/-- Witness for C2 at a concrete unrecognized configuration. -/
theorem prepare_unrecognized_kinds_fail_witness :
    prepare_lossfn_optims_lr_scheduler "mse" "sgd" 1 1 1
      = .error (.unboundLocalError "optimizer") :=
  prepare_unrecognized_kinds_fail "mse" "sgd" 1 1 1
    (by decide) (by decide) (by decide) (by decide)

/-- Claim C8: accuracy lies in [0,1] for any batch with at least one row,
and is invariant under any per-row transform preserving each row arg-max;
in particular strictly monotone per-entry transforms and a further softmax
application leave it unchanged. -/
theorem accuracy_range_and_argmax_invariance
    (y_pred : List (List ℚ)) (y_target : List ℕ) (h : y_pred ≠ []) :
    (0 ≤ accuracy y_pred y_target ∧ accuracy y_pred y_target ≤ 1)
    ∧ (∀ g : List ℚ → List ℚ, (∀ row, argmaxRow (g row) = argmaxRow row) →
         accuracy (y_pred.map g) y_target = accuracy y_pred y_target)
    ∧ (∀ t : ℚ → ℚ, StrictMono t →
         accuracy (y_pred.map (List.map t)) y_target = accuracy y_pred y_target)
    ∧ accuracy (y_pred.map softmaxModel) y_target = accuracy y_pred y_target := by
  refine ⟨⟨?_, ?_⟩, ?_, ?_, ?_⟩
  · unfold accuracy
    positivity
  · unfold accuracy correctCount
    rcases Nat.eq_zero_or_pos ((predClasses y_pred).zip y_target).length with h0 | hpos
    · rw [h0]
      have hc : (((predClasses y_pred).zip y_target).countP (fun pt => pt.1 == pt.2)) = 0 :=
        Nat.le_zero.mp (h0 ▸ List.countP_le_length _)
      rw [hc]
      norm_num
    · rw [div_le_one (by exact_mod_cast hpos)]
      exact_mod_cast List.countP_le_length _
  · intro g hg
    exact accuracy_map_of_argmax_preserving g hg y_pred y_target
  · intro t ht
    exact accuracy_map_of_argmax_preserving (List.map t)
      (fun row => argmaxRow_map t ht row) y_pred y_target
  · exact accuracy_map_of_argmax_preserving softmaxModel
      argmaxRow_softmaxModel y_pred y_target

/-- Witness for C8 at a concrete two-row batch. -/
theorem accuracy_range_and_argmax_invariance_witness :
    (0 ≤ accuracy [[(1:ℚ), 2], [3, 0]] [1, 0]
      ∧ accuracy [[(1:ℚ), 2], [3, 0]] [1, 0] ≤ 1)
    ∧ accuracy ([[(1:ℚ), 2], [3, 0]].map softmaxModel) [1, 0]
        = accuracy [[(1:ℚ), 2], [3, 0]] [1, 0] :=
  ⟨(accuracy_range_and_argmax_invariance [[1, 2], [3, 0]] [1, 0] (by decide)).1,
   (accuracy_range_and_argmax_invariance [[1, 2], [3, 0]] [1, 0] (by decide)).2.2.2⟩

/-- Claim C7, evaluated on the code: `criterator = "bce"` does not yield a
usable binary cross entropy loss; the call raises AttributeError because
`torch.nn` has no attribute `BCE` (the class is `BCELoss`).  The "cel"
branch does succeed with a cross entropy loss and a usable optimizer and
scheduler triple. -/
theorem prepare_bce_branch_raises :
    prepare_lossfn_optims_lr_scheduler "bce" "adamw" (1/1000) (1/10000) (1/10)
        = .error (.attributeError "BCE")
    ∧ prepare_lossfn_optims_lr_scheduler "cel" "adamw" (1/1000) (1/10000) (1/10)
        = .ok (.crossEntropyLoss,
               .adamW (1/1000) (9/10) (999/1000) (1/1000000) (1/10000),
               .exponentialLR (1/10)) := by
  constructor
  · rfl
  · rfl

/-- Claim C3: a completed `train` call returns histories with exactly one
entry appended per batch: `num_epochs * nT` training losses and accuracies
and `num_epochs * nV` validation accuracies. -/
theorem train_history_lengths (env : Env) (nT nV : ℕ)
    (criterator optimizer_type : String) (path : Option String)
    (fs : List String) (num_epochs : ℕ) (lr wd gm : ℚ) (res : TrainResult)
    (h : train env nT nV criterator optimizer_type path fs num_epochs lr wd gm
      = .ok res) :
    res.train_loss.length = num_epochs * nT
    ∧ res.train_acc.length = num_epochs * nT
    ∧ res.test_acc.length = num_epochs * nV := by
  obtain ⟨st, pr, hloop, hck, hres⟩ := train_ok_inv h
  subst hres
  obtain ⟨_, h1, h2, h3⟩ := epochsFrom_ok num_epochs 1 _ st hloop
  simp only [List.length_nil, Nat.zero_add] at h1 h2 h3
  exact ⟨h1, h2, h3⟩

/-- Witness for C3 on the completed demo run. -/
theorem train_history_lengths_witness :
    rDemo.train_loss.length = 1 * 2 ∧ rDemo.train_acc.length = 1 * 2
    ∧ rDemo.test_acc.length = 1 * 2 :=
  train_history_lengths demoEnv 2 2 "cel" "adamw" (some "models/net.bin") [] 1
    (1/1000) (1/10000) (1/10) rDemo demo_run

/-- Claim C1, evaluated on the code: with two training batches of losses
1 and 2, line 265 emits 3 = (1+2)/(2-1) as the "Average Training Loss",
because it divides the running sum by the last loop index
`i = batch_per_epoch_train - 1`; the mean over the batches processed,
(1+2)/2 = 3/2, is never emitted. -/
theorem train_avg_loss_divides_by_last_index :
    train demoEnv 2 2 "cel" "adamw" (some "models/net.bin") [] 1
        (1/1000) (1/10000) (1/10) = .ok rDemo
    ∧ Ev.emitAvgTrainLoss 1 3 ∈ rDemo.evs
    ∧ Ev.emitAvgTrainLoss 1 ((1 + 2) / 2) ∉ rDemo.evs := by
  refine ⟨demo_run, ?_, ?_⟩
  · simp [rDemo]
  · simp only [rDemo, List.mem_cons, List.not_mem_nil, or_false]
    norm_num
    exact ⟨by decide, by decide, by decide, by decide, by decide,
           by decide, by decide, by decide, by decide⟩

/-- Claim C10: with batch_per_epoch_train = 1 and a well-formed
configuration, every train call with at least one epoch raises
ZeroDivisionError when emitting the first average training loss (the
divisor is the last loop index, 0), so it never completes. -/
theorem train_single_train_batch_zero_division (env : Env) (nV : ℕ)
    (optimizer_type : String) (path : Option String) (fs : List String)
    (num_epochs : ℕ) (lr wd gm : ℚ)
    (ho : optimizer_type = "radam" ∨ optimizer_type = "adamw")
    (hne : 1 ≤ num_epochs) :
    train env 1 nV "cel" optimizer_type path fs num_epochs lr wd gm
      = .error (.zeroDivisionError, [Ev.pullTrain 1 0]) := by
  obtain ⟨m, hm⟩ := Nat.exists_eq_add_of_le hne
  subst hm
  rw [Nat.add_comm 1 m]
  rcases ho with rfl | rfl
  · unfold train
    rw [show prepare_lossfn_optims_lr_scheduler "cel" "radam" lr wd gm
        = .ok (.crossEntropyLoss,
               .rAdam lr (9/10) (999/1000) (1/1000000) wd,
               .exponentialLR gm) from rfl]
    rw [epochsFrom_nT_one]
    rfl
  · unfold train
    rw [show prepare_lossfn_optims_lr_scheduler "cel" "adamw" lr wd gm
        = .ok (.crossEntropyLoss,
               .adamW lr (9/10) (999/1000) (1/1000000) wd,
               .exponentialLR gm) from rfl]
    rw [epochsFrom_nT_one]
    rfl

/-- Witness for C10 at a concrete configuration. -/
theorem train_single_train_batch_zero_division_witness :
    train demoEnv 1 2 "cel" "adamw" (some "models/net.bin") [] 1
        (1/1000) (1/10000) (1/10)
      = .error (.zeroDivisionError, [Ev.pullTrain 1 0]) :=
  train_single_train_batch_zero_division demoEnv 2 "adamw"
    (some "models/net.bin") [] 1 (1/1000) (1/10000) (1/10)
    (Or.inr rfl) (by decide)

/-- Claim C9: when the configured save path is the default None, a train
call whose epochs all complete raises TypeError at the checkpoint step
(`os.path.dirname(None)`): no model is ever saved during the run and the
histories are not returned. -/
theorem train_none_path_checkpoint_typeerror (env : Env) (nT nV : ℕ)
    (criterator optimizer_type : String) (fs : List String)
    (num_epochs : ℕ) (lr wd gm : ℚ) (plan : LossFn × Optim × Sched) (st : St)
    (hprep : prepare_lossfn_optims_lr_scheduler criterator optimizer_type lr wd gm
      = .ok plan)
    (hloop : epochsFrom env nT nV gm 1 num_epochs
        { kTrain := 0, kVal := 0, evs := [], train_loss := [],
          train_acc := [], test_acc := [], lr := lr } = .ok st) :
    train env nT nV criterator optimizer_type none fs num_epochs lr wd gm
      = .error (.typeError, st.evs)
    ∧ ∀ q, Ev.saveModel q ∉ st.evs := by
  constructor
  · unfold train
    rw [hprep, hloop]
    rfl
  · intro q
    obtain ⟨hb, _, _, _⟩ := epochsFrom_ok num_epochs 1 _ st hloop
    rw [hb]
    simp only [List.nil_append]
    exact saveModel_not_mem_blocks env nT nV gm num_epochs 1 0 0 lr q

/-- Witness for C9 on the demo environment. -/
theorem train_none_path_checkpoint_typeerror_witness :
    train demoEnv 2 2 "cel" "adamw" none [] 1 (1/1000) (1/10000) (1/10)
      = .error (.typeError, stDemo.evs)
    ∧ Ev.saveModel "models/imd-sa.bin" ∉ stDemo.evs :=
  ⟨(train_none_path_checkpoint_typeerror demoEnv 2 2 "cel" "adamw" [] 1
      (1/1000) (1/10000) (1/10)
      (.crossEntropyLoss,
       .adamW (1/1000) (9/10) (999/1000) (1/1000000) (1/10000),
       .exponentialLR (1/10)) stDemo rfl demo_epochsFrom).1,
   (train_none_path_checkpoint_typeerror demoEnv 2 2 "cel" "adamw" [] 1
      (1/1000) (1/10000) (1/10)
      (.crossEntropyLoss,
       .adamW (1/1000) (9/10) (999/1000) (1/1000000) (1/10000),
       .exponentialLR (1/10)) stDemo rfl demo_epochsFrom).2
     "models/imd-sa.bin"⟩

/-- Claim C6: when the parent directory of the configured save path is
missing at checkpoint time (and is a proper directory name, not empty and
not a run of slashes), the completed call creates it, silently saves at
parent ++ "/imd-sa.bin" regardless of the configured filename, logs
parent ++ "/imdb-sa.bin" instead, and returns the path actually used. -/
theorem checkpoint_missing_dir_rewrites_path (env : Env) (nT nV : ℕ)
    (criterator optimizer_type : String) (p : String) (fs : List String)
    (num_epochs : ℕ) (lr wd gm : ℚ) (res : TrainResult)
    (h : train env nT nV criterator optimizer_type (some p) fs num_epochs lr wd gm
      = .ok res)
    (hmiss : dirname p ∉ fs)
    (hsl : ¬ (dirname p).data.all (fun c => c = '/')) :
    res.savedPath = dirname p ++ "/imd-sa.bin"
    ∧ Ev.mkdirDir (dirname p) ∈ res.evs
    ∧ Ev.saveModel (dirname p ++ "/imd-sa.bin") ∈ res.evs
    ∧ Ev.logSaveAt (dirname p ++ "/imdb-sa.bin") ∈ res.evs := by
  obtain ⟨st, pr, hloop, hck, hres⟩ := train_ok_inv h
  subst hres
  rw [checkpointStep_some, if_neg hmiss] at hck
  by_cases hg : dirname p = "" ∨ (dirname (dirname p) ≠ "" ∧ dirname (dirname p) ∉ fs)
  · rw [if_pos hg] at hck
    exact absurd hck (by simp)
  · rw [if_neg hg] at hck
    push_neg at hg
    obtain ⟨hne, _⟩ := hg
    rw [Except.ok.injEq] at hck
    subst hck
    have hlog : dirname (dirname p ++ "/imd-sa.bin") = dirname p :=
      dirname_of_data _ _ ("imd-sa.bin".data)
        (by rw [String.data_append])
        (by decide) hne hsl (dirname_getLast_ne_slash p hne hsl)
    refine ⟨rfl, ?_, ?_, ?_⟩
    · simp
    · simp
    · rw [show Ev.logSaveAt (dirname p ++ "/imdb-sa.bin")
          = Ev.logSaveAt (dirname (dirname p ++ "/imd-sa.bin") ++ "/imdb-sa.bin")
          from by rw [hlog]]
      simp

/-- Witness for C6 on the demo run: configured path "models/net.bin" with
no existing directories; the returned path is "models/imd-sa.bin". -/
theorem checkpoint_missing_dir_rewrites_path_witness :
    rDemo.savedPath = dirname "models/net.bin" ++ "/imd-sa.bin"
    ∧ Ev.mkdirDir (dirname "models/net.bin") ∈ rDemo.evs
    ∧ Ev.saveModel (dirname "models/net.bin" ++ "/imd-sa.bin") ∈ rDemo.evs
    ∧ Ev.logSaveAt (dirname "models/net.bin" ++ "/imdb-sa.bin") ∈ rDemo.evs :=
  checkpoint_missing_dir_rewrites_path demoEnv 2 2 "cel" "adamw"
    "models/net.bin" [] 1 (1/1000) (1/10000) (1/10) rDemo demo_run
    (by decide) (by decide)

/-- Claim C4: in every completed train call, each epoch `e` in
1..num_epochs has exactly one scheduler step: the trace splits as
`a ++ [schedStep e] ++ b` where `a` holds all `nT` training pulls and all
`nV` validation pulls of epoch `e`, no scheduler step of `e` occurs
elsewhere, and no event of epoch `e` at all occurs after it. -/
theorem scheduler_steps_once_after_validation (env : Env) (nT nV : ℕ)
    (criterator optimizer_type : String) (path : Option String)
    (fs : List String) (num_epochs : ℕ) (lr wd gm : ℚ) (res : TrainResult)
    (h : train env nT nV criterator optimizer_type path fs num_epochs lr wd gm
      = .ok res)
    (e : ℕ) (he1 : 1 ≤ e) (he2 : e ≤ num_epochs) :
    ∃ a v b, res.evs = a ++ Ev.schedStep e v :: b
      ∧ a.countP (isSchedOf e) = 0 ∧ b.countP (isSchedOf e) = 0
      ∧ a.countP (isTrainPullOf e) = nT
      ∧ a.countP (isValPullOf e) = nV
      ∧ b.countP (isPhaseEvOf e) = 0 := by
  obtain ⟨st, pr, hloop, hck, hres⟩ := train_ok_inv h
  subst hres
  obtain ⟨hevs, _, _, _⟩ := epochsFrom_ok num_epochs 1 _ st hloop
  simp only [List.nil_append] at hevs
  obtain ⟨tail, htail, hcnt⟩ := checkpointStep_ok_evs hck
  obtain ⟨a, v, b, hsplit, ha1, hb1, ha2, ha3, hb2⟩ :=
    blocks_sched_decomp env nT nV gm num_epochs 1 0 0 lr e he1 (by omega)
  refine ⟨a, v, b ++ tail, ?_, ha1, ?_, ha2, ha3, ?_⟩
  · rw [htail, hevs, hsplit]
    simp [List.append_assoc]
  · rw [List.countP_append, hb1, (hcnt e).1]
  · rw [List.countP_append, hb2, (hcnt e).2.1]

/-- Witness for C4 on the completed demo run at epoch 1. -/
theorem scheduler_steps_once_after_validation_witness :
    ∃ a v b, rDemo.evs = a ++ Ev.schedStep 1 v :: b
      ∧ a.countP (isSchedOf 1) = 0 ∧ b.countP (isSchedOf 1) = 0
      ∧ a.countP (isTrainPullOf 1) = 2
      ∧ a.countP (isValPullOf 1) = 2
      ∧ b.countP (isPhaseEvOf 1) = 0 :=
  scheduler_steps_once_after_validation demoEnv 2 2 "cel" "adamw"
    (some "models/net.bin") [] 1 (1/1000) (1/10000) (1/10) rDemo demo_run
    1 (by decide) (by decide)

/-- Claim C5: in every completed train call, epoch `e` emits its validation
accuracy exactly once, and the emitted value is exactly the total correct
prediction count divided by the total example count over the `nV`
validation batches (the independently accumulated pair), not derived from
the per-batch accuracies; on the demo validation batches of unequal sizes
1 and 3 this exact ratio (1/2) differs from the arithmetic mean of the two
per-batch accuracies (2/3). -/
theorem val_accuracy_is_exact_ratio (env : Env) (nT nV : ℕ)
    (criterator optimizer_type : String) (path : Option String)
    (fs : List String) (num_epochs : ℕ) (lr wd gm : ℚ) (res : TrainResult)
    (h : train env nT nV criterator optimizer_type path fs num_epochs lr wd gm
      = .ok res)
    (e : ℕ) (he1 : 1 ≤ e) (he2 : e ≤ num_epochs) :
    (res.evs.countP (isValEmitOf e) = 1
     ∧ Ev.emitValAcc e (epochCorrect env nV ((e - 1) * nV)
          / epochTotal env nV ((e - 1) * nV)) ∈ res.evs)
    ∧ epochCorrect demoEnv 2 0 / epochTotal demoEnv 2 0
        ≠ (accuracy (demoEnv.valObs 0).pred (demoEnv.valObs 0).label
            + accuracy (demoEnv.valObs 1).pred (demoEnv.valObs 1).label) / 2 := by
  constructor
  · obtain ⟨st, pr, hloop, hck, hres⟩ := train_ok_inv h
    subst hres
    obtain ⟨hevs, _, _, _⟩ := epochsFrom_ok num_epochs 1 _ st hloop
    simp only [List.nil_append] at hevs
    obtain ⟨tail, htail, hcnt⟩ := checkpointStep_ok_evs hck
    obtain ⟨hc, hm⟩ :=
      blocks_valEmit_decomp env nT nV gm num_epochs 1 0 0 lr e he1 (by omega)
    constructor
    · rw [htail, List.countP_append, hevs, hc, (hcnt e).2.2]
    · rw [htail, hevs]
      apply List.mem_append_left
      simpa using hm
  · have hv0 : demoEnv.valObs 0 = { pred := [[0, 1]], label := [1] } := rfl
    have hv1 : demoEnv.valObs 1
        = { pred := [[0, 1], [0, 1], [0, 1]], label := [1, 0, 0] } := rfl
    have hcor : epochCorrect demoEnv 2 0 = 2 := by
      norm_num [epochCorrect, List.range_succ, hv0, hv1,
        correctCount_demo_one, correctCount_demo_three]
    have htot : epochTotal demoEnv 2 0 = 4 := by
      norm_num [epochTotal, List.range_succ, hv0, hv1]
    rw [hcor, htot, hv0, hv1]
    simp only [accuracy_demo_one, accuracy_demo_three]
    norm_num

/-- Witness for C5 on the completed demo run at epoch 1. -/
theorem val_accuracy_is_exact_ratio_witness :
    rDemo.evs.countP (isValEmitOf 1) = 1
    ∧ Ev.emitValAcc 1 (epochCorrect demoEnv 2 ((1 - 1) * 2)
        / epochTotal demoEnv 2 ((1 - 1) * 2)) ∈ rDemo.evs :=
  (val_accuracy_is_exact_ratio demoEnv 2 2 "cel" "adamw"
    (some "models/net.bin") [] 1 (1/1000) (1/10000) (1/10) rDemo demo_run
    1 (by decide) (by decide)).1

end SentiNet
